import Mathlib

/-
  Verification of the adk-go model-adaptation and tool-invocation core.

  Shallow embedding of:
    - src/model/openai/openai.go        (request/response translation, streaming)
    - src/tool/loadartifactstool/...    (artifact loader tool, function tool)
    - src/tool/tool.go                  (mcpTool.Run)

  Conventions of the embedding:
    - Go strings are Lean String; genai.Role is a String.
    - Go `any` values reachable from function-call payloads are modelled by
      the inductive GoVal covering the variants the code inspects.
    - Go floating point knobs (temperature, top-p, ...) are modelled as
      rationals; no claim depends on float rounding.
    - nil pointer entries inside content/part slices, which the translation
      code skips, are not modelled: lists contain the non-nil elements.
    - int32 conversions of token counts are modelled as Int (no claim
      involves values near 2^31).
-/

namespace AdkGo

/-- Model of genai function-call / function-result payload values
(Go `any` as it appears in `map[string]any` payloads).  The artifact
detector only distinguishes `[]string` from everything else. -/
inductive GoVal where
  | strList (xs : List String)
  | num (x : ℚ)
  | str (s : String)
  | boolVal (b : Bool)
  | nullVal
deriving DecidableEq, Repr

/-- Go `%T` name of the modelled dynamic value, used in error messages
(`fmt.Errorf("invalid artifact names type: %T, ...")`). -/
def goTypeName : GoVal → String
  | .strList _ => "[]string"
  | .num _ => "float64"
  | .str _ => "string"
  | .boolVal _ => "bool"
  | .nullVal => "<nil>"

/-- Model of genai.FunctionCall (fields the repository reads). -/
structure FunctionCall where
  name : String
  args : List (String × GoVal)
deriving DecidableEq, Repr

/-- Model of genai.FunctionResponse (fields the repository reads).
The Go `map[string]any` response payload is an association list with
unique keys; lookup takes the first match. -/
structure FunctionResponse where
  name : String
  response : List (String × GoVal)
deriving DecidableEq, Repr

/-- Model of genai.Part: text plus the two structured variants the
repository inspects.  A well-formed Part populates exactly one variant;
the code only branches on `Text != ""` / `FunctionResponse != nil`. -/
structure Part where
  text : String
  functionCall : Option FunctionCall
  functionResponse : Option FunctionResponse
deriving DecidableEq, Repr

/-- Model of genai.NewPartFromText. -/
def NewPartFromText (text : String) : Part :=
  { text := text, functionCall := none, functionResponse := none }

/-- Model of genai.Content: a role-attributed turn. -/
structure Content where
  role : String
  parts : List Part
deriving DecidableEq, Repr

/-- Model of genai.NewContentFromText(text, role). -/
def NewContentFromText (text : String) (role : String) : Content :=
  { role := role, parts := [NewPartFromText text] }

/-- Model of openai.ChatCompletionMessageParamUnion restricted to the
constructors the translator produces (openai.UserMessage etc. each wrap
one text payload). -/
inductive Message where
  | user (s : String)
  | assistant (s : String)
  | system (s : String)
  | developer (s : String)
deriving DecidableEq, Repr

/-- Text payload carried by a provider message. -/
def msgText : Message → String
  | .user s => s
  | .assistant s => s
  | .system s => s
  | .developer s => s

/-- Model of the `switch role` in newMessages (openai.go:172-183): the
message constructor for a mapped role, none for any other role. -/
def roleMsgFunc : String → Option (String → Message)
  | "" => some Message.user
  | "user" => some Message.user
  | "model" => some Message.assistant
  | "system" => some Message.system
  | "developer" => some Message.developer
  | _ => none

/-- Model of newMessages (openai.go:169-190): nil for an unmapped role,
otherwise one provider message per collected text. -/
def newMessages (role : String) (texts : List String) : Option (List Message) :=
  (roleMsgFunc role).map (fun f => texts.map f)

/-- Texts collected from a turn's parts by the part loop of
covertContents (openai.go:135-142): a part contributes its text exactly
when the text is non-empty. -/
def partTexts (parts : List Part) : List String :=
  parts.filterMap (fun p => if p.text = "" then none else some p.text)

/-- Loop of covertContents (openai.go:130-145) with its mutable state
(accumulated messages, pending texts buffer, current role) made explicit.
Per turn: turns with no parts are skipped; otherwise the turn's non-empty
part texts are appended to the buffer and flushText runs: an empty buffer
flushes to nothing; a buffer under an unmapped role flushes to nothing
and (as in the source, where the early return skips the reset) the
buffer is NOT cleared; otherwise the buffer becomes messages and is
cleared. -/
def covertContentsAux : List Content → List Message → List String → String → List Message
  | [], msgs, _, _ => msgs
  | c :: rest, msgs, texts, curRole =>
    if c.parts = [] then covertContentsAux rest msgs texts curRole
    else
      let texts2 := texts ++ partTexts c.parts
      if texts2 = [] then covertContentsAux rest msgs texts2 c.role
      else
        match newMessages c.role texts2 with
        | none => covertContentsAux rest msgs texts2 c.role
        | some ms => covertContentsAux rest (msgs ++ ms) [] c.role

/-- Model of covertContents (openai.go:112-148). -/
def covertContents (contents : List Content) : List Message :=
  covertContentsAux contents [] [] ""

/-- Model of covertSystemMessage (openai.go:150-167): nil / empty-parts
instruction yields nothing, otherwise one system message per non-empty
text part.  The nil-pointer case is the `none` at the call site. -/
def covertSystemMessage (si : Content) : List Message :=
  if si.parts = [] then []
  else si.parts.filterMap (fun p => if p.text = "" then none else some (Message.system p.text))

/-- Model of genai.GenerateContentConfig (knobs read by
applyGenerationConfig). Pointer-typed knobs are Options; value-typed
knobs carry their zero value when unset. -/
structure GenerateContentConfig where
  temperature : Option ℚ
  topP : Option ℚ
  topK : Option ℚ
  maxOutputTokens : Int
  stopSequences : List String
  candidateCount : Int
  frequencyPenalty : Option ℚ
  presencePenalty : Option ℚ
  responseLogprobs : Bool
  logprobs : Option Int
  systemInstruction : Option Content
  responseMIMEType : String
deriving DecidableEq, Repr

/-- Model of openai.ChatCompletionNewParams (fields the translator sets). -/
structure ChatCompletionNewParams where
  model : String
  messages : List Message
  temperature : Option ℚ
  topP : Option ℚ
  maxTokens : Option Int
  stop : Option (List String)
  n : Option Int
  frequencyPenalty : Option ℚ
  presencePenalty : Option ℚ
  topLogprobs : Option Int
deriving DecidableEq, Repr

/-- Pure knob assignments of applyGenerationConfig (openai.go:295-325)
in source order.  The top-k error check, which the source performs
between the top-p and max-tokens assignments, is hoisted into
applyGenerationConfig: the assignments are pure and the error path
discards the params, so the split is observationally equal. -/
def applyKnobs (params : ChatCompletionNewParams) (c : GenerateContentConfig) : ChatCompletionNewParams :=
  let p1 := match c.temperature with
    | some t => { params with temperature := some t }
    | none => params
  let p2 := match c.topP with
    | some t => { p1 with topP := some t }
    | none => p1
  let p3 := if c.maxOutputTokens > 0 then { p2 with maxTokens := some c.maxOutputTokens } else p2
  let p4 := if c.stopSequences ≠ [] then { p3 with stop := some c.stopSequences } else p3
  let p5 := if c.candidateCount > 1 then { p4 with n := some c.candidateCount } else p4
  let p6 := match c.frequencyPenalty with
    | some v => { p5 with frequencyPenalty := some v }
    | none => p5
  let p7 := match c.presencePenalty with
    | some v => { p6 with presencePenalty := some v }
    | none => p6
  if c.responseLogprobs then
    match c.logprobs with
    | some l => { p7 with topLogprobs := some l }
    | none => { p7 with topLogprobs := some 1 }
  else p7

/-- Model of applyGenerationConfig (openai.go:291-334): nil config is a
no-op; an attempted top-k is an error; the system instruction (if any)
is appended to the params' message list (which is empty at the call
site); an unsupported response MIME type is an error. -/
def applyGenerationConfig (params : ChatCompletionNewParams) (cfg : Option GenerateContentConfig) : Except String ChatCompletionNewParams :=
  match cfg with
  | none => .ok params
  | some c =>
    if c.topK.isSome then .error "top_k is not supported"
    else
      let p := applyKnobs params c
      let p2 := match c.systemInstruction with
        | some si => { p with messages := p.messages ++ covertSystemMessage si }
        | none => p
      if c.responseMIMEType ≠ "" ∧ c.responseMIMEType ≠ "text/plain" then
        .error "response_mime_type is not supported"
      else .ok p2

/-- Model of model.LLMRequest (fields the adapter reads). -/
structure LLMRequest where
  model : String
  contents : List Content
  config : Option GenerateContentConfig
deriving DecidableEq, Repr

/-- Model of LLMRequest2ChatCompletionNewParams (openai.go:99-110):
fresh params (empty message list), then applyGenerationConfig (which
appends any system-instruction messages), then the turn messages are
appended after them. -/
def LLMRequest2ChatCompletionNewParams (req : LLMRequest) : Except String ChatCompletionNewParams :=
  let params : ChatCompletionNewParams :=
    { model := req.model, messages := [], temperature := none, topP := none,
      maxTokens := none, stop := none, n := none, frequencyPenalty := none,
      presencePenalty := none, topLogprobs := none }
  match applyGenerationConfig params req.config with
  | .error e => .error e
  | .ok p => .ok { p with messages := p.messages ++ covertContents req.contents }

/-- Model of maybeAppendUserContent (openai.go:89-97): prime an empty
conversation with one synthetic user turn; if the last turn is not
user-authored, append a continuation user turn. -/
def maybeAppendUserContent (contents : List Content) : List Content :=
  let c1 := if contents.isEmpty
    then contents ++ [NewContentFromText "Handle the requests as specified in the System Instruction." "user"]
    else contents
  match c1.getLast? with
  | some last =>
    if last.role ≠ "user"
      then c1 ++ [NewContentFromText "Continue processing previous requests as instructed. Exit or provide a summary if no more outputs are needed." "user"]
      else c1
  | none => c1

/-- Model of genai.GenerateContentResponseUsageMetadata (fields set by
convertUsage). -/
structure UsageMetadata where
  promptTokenCount : Int
  candidatesTokenCount : Int
  totalTokenCount : Int
  thoughtsTokenCount : Int
deriving DecidableEq, Repr

/-- Model of openai.CompletionUsage (fields read by convertUsage;
reasoningTokens stands for CompletionTokensDetails.ReasoningTokens). -/
structure CompletionUsage where
  promptTokens : Int
  completionTokens : Int
  totalTokens : Int
  reasoningTokens : Int
deriving DecidableEq, Repr

/-- Model of convertUsage (openai.go:263-272). -/
def convertUsage (u : CompletionUsage) : UsageMetadata :=
  { promptTokenCount := u.promptTokens, candidatesTokenCount := u.completionTokens,
    totalTokenCount := u.totalTokens, thoughtsTokenCount := u.reasoningTokens }

/-- Model of the finishReason table (openai.go:274-289), producing the
genai.FinishReason string constants; every unknown provider value falls
back to STOP. -/
def finishReasonMap (reason : String) : String :=
  match reason with
  | "stop" => "STOP"
  | "length" => "MAX_TOKENS"
  | "tool_calls" => "STOP"
  | "content_filter" => "SAFETY"
  | "function_call" => "STOP"
  | _ => "STOP"

/-- One streamed choice of an openai.ChatCompletionChunk (fields the
converter reads: Delta.Content and FinishReason). -/
structure ChunkChoice where
  deltaContent : String
  finishReason : String
deriving DecidableEq, Repr

/-- Model of openai.ChatCompletionChunk.  `usage = some u` models
`chunk.JSON.Usage.Valid()` with value u; `none` models an absent usage
field. -/
structure ChatCompletionChunk where
  choices : List ChunkChoice
  usage : Option CompletionUsage
deriving DecidableEq, Repr

/-- Model of model.LLMResponse (fields the adapter writes). The Go
field Partial is renamed isIncremental because the source name is a
Lean keyword; FinishReason is the genai string, "" meaning unset. -/
structure LLMResponse where
  content : Option Content
  isIncremental : Bool
  turnComplete : Bool
  finishReason : String
  usageMetadata : Option UsageMetadata
  errorCode : String
  errorMessage : String
deriving DecidableEq, Repr

/-- Model of convertChunk (openai.go:221-261): a choiceless chunk with
valid usage yields the final turn-complete usage event; a choiceless
chunk without usage is suppressed (nil); otherwise the first choice
yields an incremental event, upgraded to a terminal event (incremental
flag cleared, finish reason mapped, usage attached when valid) when the
choice carries a non-empty finish reason. -/
def convertChunk (chunk : ChatCompletionChunk) : Option LLMResponse :=
  match chunk.choices with
  | [] =>
    match chunk.usage with
    | some u =>
      some { content := none, isIncremental := false, turnComplete := true,
             finishReason := "", usageMetadata := some (convertUsage u),
             errorCode := "", errorMessage := "" }
    | none => none
  | choice :: _ =>
    let content : Content :=
      { role := "model",
        parts := if choice.deltaContent = "" then [] else [NewPartFromText choice.deltaContent] }
    let resp : LLMResponse :=
      { content := some content, isIncremental := true, turnComplete := false,
        finishReason := "", usageMetadata := none, errorCode := "", errorMessage := "" }
    some (if choice.finishReason ≠ "" then
      { resp with turnComplete := true, isIncremental := false,
                  finishReason := finishReasonMap choice.finishReason,
                  usageMetadata := chunk.usage.map convertUsage }
    else resp)

/-- Events emitted by the loop of generateStream (openai.go:73-81) over
an error-free chunk sequence: every chunk converts, nil results are
suppressed, order is preserved. -/
def streamEvents (chunks : List ChatCompletionChunk) : List LLMResponse :=
  chunks.filterMap convertChunk

/-- Model of the artifact loading oracle: agent.Artifacts.Load projected
to the content part it returns (or the load error). -/
def LoadFunc : Type := String → Except String Part

/-- Model of loadIndividualArtifact (load_artifacts_tool.go:207-219):
wrap the load error, or build the synthetic user turn labelling the
artifact's content part. -/
def loadIndividualArtifact (load : LoadFunc) (artifactName : String) : Except String Content :=
  match load artifactName with
  | .error e => .error ("failed to load artifact " ++ artifactName ++ ": " ++ e)
  | .ok p =>
    .ok { parts := [NewPartFromText ("Artifact " ++ artifactName ++ " is:"), p],
          role := "user" }

/-- Model of the errgroup fan-out of processLoadArtifactsFunctionCall
(load_artifacts_tool.go:183-201): one slot per requested name, filled by
index so the aggregate order is the request order; the goroutine wraps a
failure once more before errgroup returns it.  The concurrent fail-fast
scheduling is modelled sequentially (first failing name in list order),
which is observationally equal whenever at most one load fails. -/
def loadAllArtifacts (load : LoadFunc) : List String → Except String (List Content)
  | [] => .ok []
  | n :: rest =>
    match loadIndividualArtifact load n with
    | .error e => .error ("failed to load artifact " ++ n ++ ": " ++ e)
    | .ok c =>
      match loadAllArtifacts load rest with
      | .error e => .error e
      | .ok cs => .ok (c :: cs)

/-- Model of processLoadArtifactsFunctionCall
(load_artifacts_tool.go:153-205): inspect only the first part of the
most recent turn; unless it is a load_artifacts function result whose
payload holds an artifact_names key, do nothing; a wrongly-typed
artifact_names is an error; a well-typed non-empty name list triggers
the fan-out and appends the loaded turns after the existing turns. -/
def processLoadArtifactsFunctionCall (load : LoadFunc) (contents : List Content) : Except String (List Content) :=
  match contents.getLast? with
  | none => .ok contents
  | some lastContent =>
    match lastContent.parts.head? with
    | none => .ok contents
    | some firstPart =>
      match firstPart.functionResponse with
      | none => .ok contents
      | some functionResponse =>
        if functionResponse.name ≠ "load_artifacts" then .ok contents
        else
          match functionResponse.response.lookup "artifact_names" with
          | none => .ok contents
          | some artifactNamesRaw =>
            match artifactNamesRaw with
            | .strList artifactNames =>
              if artifactNames = [] then .ok contents
              else
                match loadAllArtifacts load artifactNames with
                | .error e => .error e
                | .ok results => .ok (contents ++ results)
            | v => .error ("invalid artifact names type: " ++ goTypeName v ++ ", expected []string")

/-- Model of functionTool.Run (functiontool.go Run, second document of
src/tool/loadartifactstool/load_artifacts_tool.go, lines 351-379).  The
dynamic world of Go `any` is the type parameter V; the schema-driven
conversions and validation of typeutil / jsonschema are oracle
parameters (goTypeOf models fmt %T, asMap the map type assertion,
box the interface boxing of the typed output).  The output schema is
always non-nil for tools built by New, so validateOutput models
`outputSchema.Validate(output) == nil`. -/
def functionToolRun {V A R : Type} (goTypeOf : V → String)
    (asMap : V → Option (List (String × V)))
    (convertIn : List (String × V) → Except String A)
    (convertOut : R → Except String (List (String × V)))
    (validateOutput : R → Bool) (box : R → V)
    (handler : A → R) (args : V) : Except String (List (String × V)) :=
  match asMap args with
  | none => .error ("unexpected args type, got: " ++ goTypeOf args)
  | some m =>
    match convertIn m with
    | .error e => .error e
    | .ok input =>
      let output := handler input
      match convertOut output with
      | .ok resp => .ok resp
      | .error err =>
        if validateOutput output then .ok [("result", box output)]
        else .error err

/-- Model of mcp content items (mcp.TextContent vs everything else the
type switch skips). -/
inductive MCPContent where
  | text (s : String)
  | other
deriving DecidableEq, Repr

/-- Concatenation of the text fragments of an mcp content list, as built
by the strings.Builder loops in mcpTool.Run (WriteString never fails for
a strings.Builder, so the error checks are dead). -/
def concatTexts (cs : List MCPContent) : String :=
  cs.foldl (fun acc c => match c with | .text s => acc ++ s | .other => acc) ""

/-- Model of mcp.CallToolResult (fields mcpTool.Run reads). -/
structure CallToolResult where
  isError : Bool
  content : List MCPContent
  structuredContent : Option GoVal
deriving DecidableEq, Repr

/-- Values placed in mcpTool.Run's result mapping: the remote structured
output or the concatenated text output. -/
inductive MCPOutVal where
  | structured (v : GoVal)
  | text (s : String)
deriving DecidableEq, Repr

/-- Model of mcpTool.Run (tool.go, mcptoolset document, lines 158-219):
session acquisition and the remote call are oracle parameters; a remote
error concatenates text details; structured output wins; otherwise the
concatenated text is returned, and an empty concatenation on a
successful response is the local error. -/
def mcpToolRun (name : String) (getSession : Except String Unit)
    (callTool : Except String CallToolResult) : Except String (List (String × MCPOutVal)) :=
  match getSession with
  | .error e => .error ("failed to get session: " ++ e)
  | .ok _ =>
    match callTool with
    | .error e => .error ("failed to call MCP tool \"" ++ name ++ "\" with err: " ++ e)
    | .ok res =>
      if res.isError then
        let details := concatTexts res.content
        .error (if details ≠ "" then "Tool execution failed. Details: " ++ details
                else "Tool execution failed.")
      else
        match res.structuredContent with
        | some sc => .ok [("output", MCPOutVal.structured sc)]
        | none =>
          let textResponse := concatTexts res.content
          if textResponse = "" then .error "no text content in tool response"
          else .ok [("output", MCPOutVal.text textResponse)]

/-- Replacement of a part's structured variants by nothing, keeping only
its text: used to state that the translator is blind to function-call
and function-result payloads. -/
def clearNonText (p : Part) : Part :=
  { text := p.text, functionCall := none, functionResponse := none }

/-- Value of the translator on a single turn: a mapped role yields one
message per non-empty text part, an unmapped role yields nothing. -/
theorem covertContents_single (c : Content) :
    covertContents [c] = match roleMsgFunc c.role with
      | some f => (partTexts c.parts).map f
      | none => [] := by
  unfold covertContents covertContentsAux newMessages
  by_cases hp : c.parts = []
  · rw [if_pos hp, hp]
    cases roleMsgFunc c.role <;> simp [partTexts, covertContentsAux]
  · rw [if_neg hp]
    by_cases ht : partTexts c.parts = []
    · simp only [List.nil_append, ht, if_pos]
      cases roleMsgFunc c.role <;> simp [covertContentsAux]
    · simp only [List.nil_append, if_neg ht]
      cases hr : roleMsgFunc c.role <;> simp [hr, covertContentsAux]

/-- On parts built from non-empty texts, partTexts recovers the texts. -/
theorem partTexts_map_NewPartFromText (texts : List String) (hne : ∀ t ∈ texts, t ≠ "") :
    partTexts (texts.map NewPartFromText) = texts := by
  induction texts with
  | nil => rfl
  | cons t rest ih =>
    have h1 : t ≠ "" := hne t (by simp)
    have h2 : ∀ s ∈ rest, s ≠ "" := fun s hs => hne s (by simp [hs])
    simp [partTexts, NewPartFromText, h1] at ih ⊢
    exact ih h2

/-- C1: claimed that two or more consecutive text parts of one turn are
merged into exactly one provider message.  Refuted: a user turn with the
two text parts "a" and "b" translates to two provider messages, not
one. -/
theorem c1_counterexample :
    covertContents [⟨"user", [NewPartFromText "a", NewPartFromText "b"]⟩]
        = [Message.user "a", Message.user "b"] ∧
    (covertContents [⟨"user", [NewPartFromText "a", NewPartFromText "b"]⟩]).length ≠ 1 := by
  decide

/-- C1 (amended): consecutive text parts of a turn are not merged; each
non-empty text part yields its own provider message of the turn's
mapped role, in part order, so a turn with k non-empty text parts
yields exactly k messages. -/
theorem c1_per_part_messages (role : String) (f : String → Message) (texts : List String)
    (hf : roleMsgFunc role = some f) (hne : ∀ t ∈ texts, t ≠ "") :
    covertContents [⟨role, texts.map NewPartFromText⟩] = texts.map f ∧
    (covertContents [⟨role, texts.map NewPartFromText⟩]).length = texts.length := by
  have h := covertContents_single ⟨role, texts.map NewPartFromText⟩
  simp only [hf] at h
  rw [partTexts_map_NewPartFromText texts hne] at h
  exact ⟨h, by rw [h, List.length_map]⟩

/-- Witness for c1_per_part_messages at role user and texts a, b. -/
theorem c1_witness :
    covertContents [⟨"user", [NewPartFromText "a", NewPartFromText "b"]⟩]
        = [Message.user "a", Message.user "b"] ∧
    (covertContents [⟨"user", [NewPartFromText "a", NewPartFromText "b"]⟩]).length = 2 := by
  have h := c1_per_part_messages "user" Message.user ["a", "b"] rfl (by decide)
  simpa using h

/-- C2: claimed that a turn with an unmapped role contributes zero
provider messages regardless of surrounding turns.  Refuted: the text
of a dropped unknown-role turn stays in the translator's buffer (the
source's flushText returns before clearing it) and is emitted under the
role of the next mapped turn: here the unknown-role text "x" resurfaces
as a user message before "y".  The claim would predict [user "y"]. -/
theorem c2_counterexample :
    covertContents [⟨"weird", [NewPartFromText "x"]⟩, ⟨"user", [NewPartFromText "y"]⟩]
        = [Message.user "x", Message.user "y"] ∧
    covertContents [⟨"weird", [NewPartFromText "x"]⟩, ⟨"user", [NewPartFromText "y"]⟩]
        ≠ [Message.user "y"] := by
  decide

/-- C2 (amended): the role table is fixed as claimed (empty and user →
user, model → assistant, system → system, developer → developer), and
for a single-turn request an unmapped role yields zero messages and no
error while a mapped role yields its message type; but in multi-turn
requests the buffered texts of a dropped turn can resurface under the
role of the next mapped turn, so the zero-message guarantee holds for
the dropped turn's own flush, not regardless of following turns. -/
theorem c2_role_mapping :
    roleMsgFunc "" = some Message.user ∧
    roleMsgFunc "user" = some Message.user ∧
    roleMsgFunc "model" = some Message.assistant ∧
    roleMsgFunc "system" = some Message.system ∧
    roleMsgFunc "developer" = some Message.developer ∧
    (∀ c f, roleMsgFunc c.role = some f → covertContents [c] = (partTexts c.parts).map f) ∧
    (∀ c, roleMsgFunc c.role = none → covertContents [c] = []) := by
  refine ⟨rfl, rfl, rfl, rfl, rfl, ?_, ?_⟩
  · intro c f hf
    have h := covertContents_single c
    rwa [hf] at h
  · intro c hf
    have h := covertContents_single c
    rwa [hf] at h

/-- Witness for c2_role_mapping: a model turn maps to an assistant
message; a lone unknown-role turn maps to nothing. -/
theorem c2_witness :
    covertContents [⟨"model", [NewPartFromText "m"]⟩] = [Message.assistant "m"] ∧
    covertContents [⟨"weird", [NewPartFromText "x"]⟩] = [] := by
  constructor
  · have h := c2_role_mapping.2.2.2.2.2.1 ⟨"model", [NewPartFromText "m"]⟩ Message.assistant rfl
    simpa using h
  · exact c2_role_mapping.2.2.2.2.2.2 ⟨"weird", [NewPartFromText "x"]⟩ rfl

/-- The pure knob assignments never touch the message list. -/
theorem applyKnobs_messages (params : ChatCompletionNewParams) (c : GenerateContentConfig) :
    (applyKnobs params c).messages = params.messages := by
  unfold applyKnobs
  repeat' split
  all_goals rfl

/-- A successful applyGenerationConfig appends exactly the
system-instruction messages (and nothing else) to the message list. -/
theorem applyGenerationConfig_ok_messages (params : ChatCompletionNewParams)
    (c : GenerateContentConfig) (p : ChatCompletionNewParams)
    (h : applyGenerationConfig params (some c) = .ok p) :
    p.messages = params.messages ++ (match c.systemInstruction with
      | some si => covertSystemMessage si
      | none => []) := by
  simp only [applyGenerationConfig] at h
  by_cases htk : c.topK.isSome = true
  · rw [if_pos htk] at h
    exact absurd h (by simp)
  · rw [if_neg htk] at h
    cases hsi : c.systemInstruction with
    | some si =>
      rw [hsi] at h
      by_cases hm : c.responseMIMEType ≠ "" ∧ c.responseMIMEType ≠ "text/plain"
      · rw [if_pos hm] at h
        exact absurd h (by simp)
      · rw [if_neg hm] at h
        have hp : { applyKnobs params c with
            messages := (applyKnobs params c).messages ++ covertSystemMessage si } = p :=
          by simpa using h
        rw [← hp]
        simp [applyKnobs_messages]
    | none =>
      rw [hsi] at h
      by_cases hm : c.responseMIMEType ≠ "" ∧ c.responseMIMEType ≠ "text/plain"
      · rw [if_pos hm] at h
        exact absurd h (by simp)
      · rw [if_neg hm] at h
        have hp : applyKnobs params c = p := by simpa using h
        rw [← hp]
        simp [applyKnobs_messages]

/-- C3: claimed that the system-instruction messages are placed after
the messages built from the request's turns.  Refuted: for a request
with one user turn "hi" and system instruction "sys", the translated
message list is [system "sys", user "hi"]: the system message comes
first, not last (the source applies the generation config, which
appends the system messages, before appending the turn messages). -/
theorem c3_counterexample :
    (match LLMRequest2ChatCompletionNewParams
        { model := "m",
          contents := [⟨"user", [NewPartFromText "hi"]⟩],
          config := some { temperature := none, topP := none, topK := none,
                           maxOutputTokens := 0, stopSequences := [], candidateCount := 0,
                           frequencyPenalty := none, presencePenalty := none,
                           responseLogprobs := false, logprobs := none,
                           systemInstruction := some ⟨"system", [NewPartFromText "sys"]⟩,
                           responseMIMEType := "" } } with
      | .ok p => p.messages
      | .error _ => []) = [Message.system "sys", Message.user "hi"] ∧
    (match LLMRequest2ChatCompletionNewParams
        { model := "m",
          contents := [⟨"user", [NewPartFromText "hi"]⟩],
          config := some { temperature := none, topP := none, topK := none,
                           maxOutputTokens := 0, stopSequences := [], candidateCount := 0,
                           frequencyPenalty := none, presencePenalty := none,
                           responseLogprobs := false, logprobs := none,
                           systemInstruction := some ⟨"system", [NewPartFromText "sys"]⟩,
                           responseMIMEType := "" } } with
      | .ok p => p.messages
      | .error _ => []) ≠ [Message.user "hi", Message.system "sys"] := by
  decide

/-- C3 (amended): whenever the generation config carries a system
instruction and translation succeeds, the translated message list is
the system messages derived from the instruction followed by (not
preceded by) the messages built from the request's turns. -/
theorem c3_system_before_turns (req : LLMRequest) (c : GenerateContentConfig)
    (si : Content) (p : ChatCompletionNewParams)
    (hc : req.config = some c) (hsi : c.systemInstruction = some si)
    (hok : LLMRequest2ChatCompletionNewParams req = .ok p) :
    p.messages = covertSystemMessage si ++ covertContents req.contents := by
  simp only [LLMRequest2ChatCompletionNewParams] at hok
  rw [hc] at hok
  cases hag : applyGenerationConfig
      { model := req.model, messages := [], temperature := none, topP := none,
        maxTokens := none, stop := none, n := none, frequencyPenalty := none,
        presencePenalty := none, topLogprobs := none } (some c) with
  | error e =>
    rw [hag] at hok
    exact absurd hok (by simp)
  | ok q =>
    rw [hag] at hok
    have hq := applyGenerationConfig_ok_messages _ c q hag
    rw [hsi] at hq
    have hp : { q with messages := q.messages ++ covertContents req.contents } = p := by
      simpa using hok
    rw [← hp]
    simp [hq]

/-- Witness for c3_system_before_turns at the request of the
counterexample input. -/
theorem c3_witness :
    LLMRequest2ChatCompletionNewParams
        { model := "m",
          contents := [⟨"user", [NewPartFromText "hi"]⟩],
          config := some { temperature := none, topP := none, topK := none,
                           maxOutputTokens := 0, stopSequences := [], candidateCount := 0,
                           frequencyPenalty := none, presencePenalty := none,
                           responseLogprobs := false, logprobs := none,
                           systemInstruction := some ⟨"system", [NewPartFromText "sys"]⟩,
                           responseMIMEType := "" } }
      = .ok { model := "m", messages := [Message.system "sys", Message.user "hi"],
              temperature := none, topP := none, maxTokens := none, stop := none,
              n := none, frequencyPenalty := none, presencePenalty := none,
              topLogprobs := none } ∧
    (({ model := "m", messages := [Message.system "sys", Message.user "hi"],
        temperature := none, topP := none, maxTokens := none, stop := none,
        n := none, frequencyPenalty := none, presencePenalty := none,
        topLogprobs := none } : ChatCompletionNewParams)).messages
      = covertSystemMessage ⟨"system", [NewPartFromText "sys"]⟩
        ++ covertContents [⟨"user", [NewPartFromText "hi"]⟩] := by
  have hok : LLMRequest2ChatCompletionNewParams
      { model := "m",
        contents := [⟨"user", [NewPartFromText "hi"]⟩],
        config := some { temperature := none, topP := none, topK := none,
                         maxOutputTokens := 0, stopSequences := [], candidateCount := 0,
                         frequencyPenalty := none, presencePenalty := none,
                         responseLogprobs := false, logprobs := none,
                         systemInstruction := some ⟨"system", [NewPartFromText "sys"]⟩,
                         responseMIMEType := "" } }
      = .ok { model := "m", messages := [Message.system "sys", Message.user "hi"],
              temperature := none, topP := none, maxTokens := none, stop := none,
              n := none, frequencyPenalty := none, presencePenalty := none,
              topLogprobs := none } := by rfl
  exact ⟨hok, c3_system_before_turns _ _ ⟨"system", [NewPartFromText "sys"]⟩ _ rfl rfl hok⟩

/-- C4: claimed that the only emitted event with a set finish reason is
the last non-suppressed event.  Refuted: streaming always requests a
trailing usage chunk (generateStream sets IncludeUsage), so the chunk
sequence [choice with finish reason "length"; choiceless usage chunk]
emits two events: the first carries the finish reason MAX_TOKENS yet is
followed by the final usage event, whose finish reason is unset.  The
claimed partial/terminal flags themselves hold (see the amended
theorem). -/
theorem c4_counterexample :
    (streamEvents [⟨[⟨"lo", "length"⟩], none⟩, ⟨[], some ⟨1, 2, 3, 0⟩⟩]).length = 2 ∧
    (streamEvents [⟨[⟨"lo", "length"⟩], none⟩, ⟨[], some ⟨1, 2, 3, 0⟩⟩]).map
        (fun e => e.finishReason) = ["MAX_TOKENS", ""] ∧
    (streamEvents [⟨[⟨"lo", "length"⟩], none⟩, ⟨[], some ⟨1, 2, 3, 0⟩⟩]).map
        (fun e => (e.isIncremental, e.turnComplete)) = [(false, true), (false, true)] ∧
    ("MAX_TOKENS" : String) ≠ "" := by
  decide

/-- C4 (amended): over any streamed chunk sequence, every event with the
partial flag set has an unset finish reason, and every event with a set
finish reason has the partial flag clear and the turn-complete flag set;
but such an event need not be the last non-suppressed event: the
trailing usage chunk yields one further turn-complete event with an
unset finish reason. -/
theorem c4_finish_reason_invariant (chunks : List ChatCompletionChunk) (e : LLMResponse)
    (he : e ∈ streamEvents chunks) :
    (e.isIncremental = true → e.finishReason = "") ∧
    (e.finishReason ≠ "" → e.isIncremental = false ∧ e.turnComplete = true) := by
  rw [streamEvents, List.mem_filterMap] at he
  obtain ⟨ch, -, hconv⟩ := he
  unfold convertChunk at hconv
  cases hch : ch.choices with
  | nil =>
    rw [hch] at hconv
    cases hu : ch.usage with
    | some u =>
      rw [hu] at hconv
      simp only [Option.some.injEq] at hconv
      subst hconv
      simp
    | none =>
      rw [hu] at hconv
      exact absurd hconv (by simp)
  | cons choice rest =>
    rw [hch] at hconv
    simp only [Option.some.injEq] at hconv
    subst hconv
    by_cases hfr : choice.finishReason ≠ ""
    · simp [hfr]
    · simp only [if_neg hfr]
      simp only [not_not] at hfr
      simp [hfr]

/-- Witness for c4_finish_reason_invariant at a single content chunk. -/
theorem c4_witness :
    ((⟨some ⟨"model", [NewPartFromText "Hel"]⟩, true, false, "", none, "", ""⟩ : LLMResponse).isIncremental = true →
      (⟨some ⟨"model", [NewPartFromText "Hel"]⟩, true, false, "", none, "", ""⟩ : LLMResponse).finishReason = "") ∧
    ((⟨some ⟨"model", [NewPartFromText "Hel"]⟩, true, false, "", none, "", ""⟩ : LLMResponse).finishReason ≠ "" →
      (⟨some ⟨"model", [NewPartFromText "Hel"]⟩, true, false, "", none, "", ""⟩ : LLMResponse).isIncremental = false ∧
      (⟨some ⟨"model", [NewPartFromText "Hel"]⟩, true, false, "", none, "", ""⟩ : LLMResponse).turnComplete = true) :=
  c4_finish_reason_invariant [⟨[⟨"Hel", ""⟩], none⟩]
    ⟨some ⟨"model", [NewPartFromText "Hel"]⟩, true, false, "", none, "", ""⟩
    (by decide)

/-- C8: conversation priming.  An empty conversation gains exactly the
one synthetic user turn; a conversation already ending in a user turn
is untouched; and the whole priming pass is idempotent. -/
theorem c8_priming_idempotent :
    (∀ (contents : List Content) (last : Content),
      contents.getLast? = some last → last.role = "user" →
      maybeAppendUserContent contents = contents) ∧
    maybeAppendUserContent []
      = [NewContentFromText "Handle the requests as specified in the System Instruction." "user"] ∧
    (∀ contents : List Content,
      maybeAppendUserContent (maybeAppendUserContent contents) = maybeAppendUserContent contents) := by
  have hfix : ∀ (contents : List Content) (last : Content),
      contents.getLast? = some last → last.role = "user" →
      maybeAppendUserContent contents = contents := by
    intro contents last hlast hrole
    have hne : contents.isEmpty = false := by
      cases contents with
      | nil => simp at hlast
      | cons a as => rfl
    simp [maybeAppendUserContent, hne, hlast, hrole]
  refine ⟨hfix, by rfl, ?_⟩
  intro contents
  by_cases hemp : contents.isEmpty = true
  · have hc : contents = [] := by
      cases contents with
      | nil => rfl
      | cons a as => simp at hemp
    subst hc
    exact hfix _ (NewContentFromText "Handle the requests as specified in the System Instruction." "user") rfl rfl
  · have hne : contents.isEmpty = false := by
      cases h : contents.isEmpty with
      | false => rfl
      | true => exact absurd h hemp
    cases hlast : contents.getLast? with
    | none =>
      cases contents with
      | nil => simp at hne
      | cons a as => simp at hlast
    | some last =>
      by_cases hrole : last.role = "user"
      · simp [hfix contents last hlast hrole]
      · have hstep : maybeAppendUserContent contents
            = contents ++ [NewContentFromText "Continue processing previous requests as instructed. Exit or provide a summary if no more outputs are needed." "user"] := by
          simp [maybeAppendUserContent, hne, hlast, hrole]
        rw [hstep]
        exact hfix _ (NewContentFromText "Continue processing previous requests as instructed. Exit or provide a summary if no more outputs are needed." "user") (by simp) rfl

/-- Witness for c8_priming_idempotent: the no-op case at a one-user-turn
conversation, the empty-conversation case, and idempotence at a
model-turn conversation. -/
theorem c8_witness :
    maybeAppendUserContent [⟨"user", [NewPartFromText "hi"]⟩] = [⟨"user", [NewPartFromText "hi"]⟩] ∧
    maybeAppendUserContent []
      = [NewContentFromText "Handle the requests as specified in the System Instruction." "user"] ∧
    maybeAppendUserContent (maybeAppendUserContent [⟨"model", [NewPartFromText "m"]⟩])
      = maybeAppendUserContent [⟨"model", [NewPartFromText "m"]⟩] :=
  ⟨c8_priming_idempotent.1 [⟨"user", [NewPartFromText "hi"]⟩] ⟨"user", [NewPartFromText "hi"]⟩ rfl rfl,
   c8_priming_idempotent.2.1,
   c8_priming_idempotent.2.2 [⟨"model", [NewPartFromText "m"]⟩]⟩

/-- When every requested load succeeds, the fan-out produces one
labelled user turn per name, in request order. -/
theorem loadAllArtifacts_ok (load : LoadFunc) (loadp : String → Part) (names : List String)
    (h : ∀ n ∈ names, load n = .ok (loadp n)) :
    loadAllArtifacts load names
      = .ok (names.map (fun n =>
          { role := "user", parts := [NewPartFromText ("Artifact " ++ n ++ " is:"), loadp n] })) := by
  induction names with
  | nil => rfl
  | cons n rest ih =>
    have hn := h n (by simp)
    have hrest : ∀ m ∈ rest, load m = .ok (loadp m) := fun m hm => h m (by simp [hm])
    simp [loadAllArtifacts, loadIndividualArtifact, hn, ih hrest]

/-- When exactly one requested load fails, the fan-out returns that
name's (twice-wrapped) error. -/
theorem loadAllArtifacts_err (load : LoadFunc) (loadp : String → Part)
    (pre post : List String) (bad e : String)
    (hpre : ∀ n ∈ pre, load n = .ok (loadp n)) (hbad : load bad = .error e) :
    loadAllArtifacts load (pre ++ bad :: post)
      = .error ("failed to load artifact " ++ bad ++ ": "
          ++ ("failed to load artifact " ++ bad ++ ": " ++ e)) := by
  induction pre with
  | nil => simp [loadAllArtifacts, loadIndividualArtifact, hbad]
  | cons n rest ih =>
    have hn := hpre n (by simp)
    have hrest : ∀ m ∈ rest, load m = .ok (loadp m) := fun m hm => hpre m (by simp [hm])
    simp [loadAllArtifacts, loadIndividualArtifact, hn, ih hrest]

/-- C5: when the detector fires on names n1..nk, a fully successful
fan-out appends exactly one labelled user turn per requested name, in
the request order (the result slots are indexed by name position, which
the functional model captures directly, making the outcome independent
of completion order); and when exactly one name fails, nothing is
appended and the error for that name is returned.  The hypotheses on
the other names' successes make the sequential fail-fast model
observationally equal to the concurrent one. -/
theorem c5_artifact_fanout (load : LoadFunc) (loadp : String → Part)
    (init : List Content) (lastRole : String) (firstPart : Part) (restParts : List Part)
    (fr : FunctionResponse) (names : List String) (pre post : List String) (bad e : String)
    (hfp : firstPart.functionResponse = some fr)
    (hname : fr.name = "load_artifacts")
    (hlook : fr.response.lookup "artifact_names" = some (GoVal.strList names))
    (hne : names ≠ []) :
    ((∀ n ∈ names, load n = .ok (loadp n)) →
      processLoadArtifactsFunctionCall load (init ++ [⟨lastRole, firstPart :: restParts⟩])
        = .ok ((init ++ [⟨lastRole, firstPart :: restParts⟩])
            ++ names.map (fun n =>
                { role := "user",
                  parts := [NewPartFromText ("Artifact " ++ n ++ " is:"), loadp n] }))) ∧
    (names = pre ++ bad :: post →
      (∀ n ∈ pre, load n = .ok (loadp n)) →
      (∀ n ∈ post, load n = .ok (loadp n)) →
      load bad = .error e →
      processLoadArtifactsFunctionCall load (init ++ [⟨lastRole, firstPart :: restParts⟩])
        = .error ("failed to load artifact " ++ bad ++ ": "
            ++ ("failed to load artifact " ++ bad ++ ": " ++ e))) := by
  have hshape : ∀ r : Except String (List Content),
      loadAllArtifacts load names = r →
      processLoadArtifactsFunctionCall load (init ++ [⟨lastRole, firstPart :: restParts⟩])
        = (match r with
          | .error er => .error er
          | .ok results => .ok ((init ++ [⟨lastRole, firstPart :: restParts⟩]) ++ results)) := by
    intro r hr
    unfold processLoadArtifactsFunctionCall
    rw [List.getLast?_concat]
    simp only [List.head?_cons, hfp, hname, hlook, hr]
    rw [if_neg (by simp)]
    rw [if_neg hne]
  constructor
  · intro hall
    rw [hshape _ (loadAllArtifacts_ok load loadp names hall)]
  · intro hsplit hpre hpost hbad
    subst hsplit
    rw [hshape _ (loadAllArtifacts_err load loadp pre post bad e hpre hbad)]

/-- Witness for c5_artifact_fanout: two artifacts a, b both load, so the
request gains the two labelled user turns in order a, b. -/
theorem c5_witness :
    processLoadArtifactsFunctionCall
        (fun n => .ok (NewPartFromText ("data-" ++ n)))
        [⟨"model", [⟨"", none, some ⟨"load_artifacts", [("artifact_names", GoVal.strList ["a", "b"])]⟩⟩]⟩]
      = .ok ([⟨"model", [⟨"", none, some ⟨"load_artifacts", [("artifact_names", GoVal.strList ["a", "b"])]⟩⟩]⟩]
          ++ [⟨"user", [NewPartFromText "Artifact a is:", NewPartFromText "data-a"]⟩,
              ⟨"user", [NewPartFromText "Artifact b is:", NewPartFromText "data-b"]⟩]) := by
  have h := (c5_artifact_fanout
    (fun n => .ok (NewPartFromText ("data-" ++ n)))
    (fun n => NewPartFromText ("data-" ++ n))
    [] "model"
    ⟨"", none, some ⟨"load_artifacts", [("artifact_names", GoVal.strList ["a", "b"])]⟩⟩
    [] ⟨"load_artifacts", [("artifact_names", GoVal.strList ["a", "b"])]⟩
    ["a", "b"] [] [] "" ""
    rfl rfl (by decide) (by decide)).1 (fun n _ => rfl)
  simpa using h

/-- C6: claimed that a present artifact_names key holding a value of a
different type (here a number) still leaves the detector a silent
no-op.  Refuted: the source returns an error for a wrongly-typed
artifact_names instead of returning the request unchanged. -/
theorem c6_counterexample :
    processLoadArtifactsFunctionCall (fun _ => .error "unused")
        [⟨"model", [⟨"", none, some ⟨"load_artifacts", [("artifact_names", GoVal.num 42)]⟩⟩]⟩]
      = .error "invalid artifact names type: float64, expected []string" ∧
    processLoadArtifactsFunctionCall (fun _ => .error "unused")
        [⟨"model", [⟨"", none, some ⟨"load_artifacts", [("artifact_names", GoVal.num 42)]⟩⟩]⟩]
      ≠ .ok [⟨"model", [⟨"", none, some ⟨"load_artifacts", [("artifact_names", GoVal.num 42)]⟩⟩]⟩] := by
  have he : processLoadArtifactsFunctionCall (fun _ => .error "unused")
        [⟨"model", [⟨"", none, some ⟨"load_artifacts", [("artifact_names", GoVal.num 42)]⟩⟩]⟩]
      = .error "invalid artifact names type: float64, expected []string" := rfl
  refine ⟨he, ?_⟩
  intro h
  rw [he] at h
  exact absurd h (by simp)

/-- C6 (amended): the detector is a silent no-op (request unchanged, no
error) whenever the request has no turns, the most recent turn has no
parts, its first part is not a function result, the function result is
not named load_artifacts, or the artifact_names key is absent; but an
artifact_names key present with a non-list-of-strings value is an
error, not a no-op. -/
theorem c6_detector_noop (load : LoadFunc) (contents : List Content)
    (h : contents.getLast? = none ∨
      ∃ lc, contents.getLast? = some lc ∧
        (lc.parts.head? = none ∨
          ∃ fp, lc.parts.head? = some fp ∧
            (fp.functionResponse = none ∨
              ∃ fr, fp.functionResponse = some fr ∧
                (fr.name ≠ "load_artifacts" ∨
                  fr.response.lookup "artifact_names" = none)))) :
    processLoadArtifactsFunctionCall load contents = .ok contents := by
  unfold processLoadArtifactsFunctionCall
  rcases h with h | ⟨lc, hlc, h⟩
  · rw [h]
  · rcases h with h | ⟨fp, hfp, h⟩
    · simp only [hlc, h]
    · rcases h with h | ⟨fr, hfr, h⟩
      · simp only [hlc, hfp, h]
      · rcases h with h | h
        · simp only [hlc, hfp, hfr]
          rw [if_pos h]
        · by_cases hn : fr.name = "load_artifacts"
          · simp only [hlc, hfp, hfr, h]
            rw [if_neg (by simp [hn])]
          · simp only [hlc, hfp, hfr]
            rw [if_pos hn]

/-- Witness for c6_detector_noop: a request whose last turn's first part
is plain text is left unchanged. -/
theorem c6_witness :
    processLoadArtifactsFunctionCall (fun _ => .error "unused")
        [⟨"user", [NewPartFromText "hello"]⟩]
      = .ok [⟨"user", [NewPartFromText "hello"]⟩] :=
  c6_detector_noop (fun _ => .error "unused") [⟨"user", [NewPartFromText "hello"]⟩]
    (Or.inr ⟨⟨"user", [NewPartFromText "hello"]⟩, rfl,
      Or.inr ⟨NewPartFromText "hello", rfl, Or.inl rfl⟩⟩)

/-- C7: the function-wrapped tool's result contract, for calls whose
arguments pass the map type assertion and the typed input conversion:
a typed output that converts to a mapping is returned unwrapped; a
typed output whose conversion fails but which validates against the
output schema is returned as the single-key mapping result → output;
when neither succeeds the original conversion error is propagated. -/
theorem c7_result_wrapping {V A R : Type} (goTypeOf : V → String)
    (asMap : V → Option (List (String × V)))
    (convertIn : List (String × V) → Except String A)
    (convertOut : R → Except String (List (String × V)))
    (validateOutput : R → Bool) (box : R → V)
    (handler : A → R) (args : V) (m : List (String × V)) (a : A)
    (h1 : asMap args = some m) (h2 : convertIn m = .ok a) :
    (∀ resp, convertOut (handler a) = .ok resp →
      functionToolRun goTypeOf asMap convertIn convertOut validateOutput box handler args
        = .ok resp) ∧
    (∀ err, convertOut (handler a) = .error err → validateOutput (handler a) = true →
      functionToolRun goTypeOf asMap convertIn convertOut validateOutput box handler args
        = .ok [("result", box (handler a))]) ∧
    (∀ err, convertOut (handler a) = .error err → validateOutput (handler a) = false →
      functionToolRun goTypeOf asMap convertIn convertOut validateOutput box handler args
        = .error err) := by
  unfold functionToolRun
  simp only [h1, h2]
  refine ⟨?_, ?_, ?_⟩
  · intro resp hresp
    simp [hresp]
  · intro err herr hval
    simp [herr, hval]
  · intro err herr hval
    simp [herr, hval]

/-- Witness for c7_result_wrapping: a handler over naturals returning a
bare value whose conversion to a mapping fails but which validates, so
Run wraps it as the result mapping. -/
theorem c7_witness :
    functionToolRun (V := Nat) (A := Nat) (R := Nat)
        (fun _ => "int") (fun v => if v = 0 then some [("x", 1)] else none)
        (fun _ => .ok 5) (fun _ => .error "cannot convert")
        (fun _ => true) (fun r => r) (fun a => a + 1) 0
      = .ok [("result", 6)] :=
  (c7_result_wrapping (fun _ => "int") (fun v => if v = 0 then some [("x", 1)] else none)
    (fun _ => .ok 5) (fun _ => .error "cannot convert")
    (fun _ => true) (fun r => r) (fun a => a + 1) 0 [("x", 1)] 5
    (by decide) rfl).2.1 "cannot convert" rfl rfl

/-- C9: claimed that an empty successful remote tool response fails with
the local error "no content in tool response".  Refuted: the source's
message is "no text content in tool response"; the behaviour (an empty
success is a local error, not an empty-but-valid result) is as claimed,
but the quoted message differs. -/
theorem c9_counterexample :
    mcpToolRun "t" (.ok ()) (.ok ⟨false, [], none⟩)
      = .error "no text content in tool response" ∧
    mcpToolRun "t" (.ok ()) (.ok ⟨false, [], none⟩)
      ≠ .error "no content in tool response" := by
  have he : mcpToolRun "t" (.ok ()) (.ok ⟨false, [], none⟩)
      = .error "no text content in tool response" := rfl
  refine ⟨he, ?_⟩
  intro h
  rw [he] at h
  simp only [Except.error.injEq] at h
  exact absurd h (by decide)

/-- C9 (amended): a successful (non-error) remote response with no
structured output and no text content makes Run fail with the local
error "no text content in tool response" rather than returning an
empty-but-valid result mapping. -/
theorem c9_empty_success_error (name : String) (res : CallToolResult)
    (herr : res.isError = false) (hsc : res.structuredContent = none)
    (htext : concatTexts res.content = "") :
    mcpToolRun name (.ok ()) (.ok res) = .error "no text content in tool response" := by
  unfold mcpToolRun
  simp only [herr, hsc, htext]
  rfl

/-- Witness for c9_empty_success_error at a successful response with one
non-text content item. -/
theorem c9_witness :
    mcpToolRun "echo" (.ok ()) (.ok ⟨false, [MCPContent.other], none⟩)
      = .error "no text content in tool response" :=
  c9_empty_success_error "echo" ⟨false, [MCPContent.other], none⟩ rfl rfl rfl

/-- Erasing a part's structured variants does not change the texts a
turn contributes. -/
theorem partTexts_map_clearNonText (ps : List Part) :
    partTexts (ps.map clearNonText) = partTexts ps := by
  unfold partTexts
  rw [List.filterMap_map]
  rfl

/-- The translator loop is blind to function-call and function-result
payloads: erasing them from every part leaves the loop's output
unchanged, from any loop state. -/
theorem covertContentsAux_map_clear (cs : List Content) :
    ∀ (msgs : List Message) (texts : List String) (r : String),
      covertContentsAux (cs.map (fun c => ⟨c.role, c.parts.map clearNonText⟩)) msgs texts r
        = covertContentsAux cs msgs texts r := by
  induction cs with
  | nil => intro msgs texts r; rfl
  | cons c rest ih =>
    intro msgs texts r
    simp only [List.map_cons, covertContentsAux]
    rw [partTexts_map_clearNonText]
    by_cases hp : c.parts = []
    · rw [if_pos (by simp [hp]), if_pos hp]
      exact ih msgs texts r
    · rw [if_neg (by simp [hp]), if_neg hp]
      by_cases ht : texts ++ partTexts c.parts = []
      · rw [if_pos ht, if_pos ht]
        exact ih msgs (texts ++ partTexts c.parts) c.role
      · rw [if_neg ht, if_neg ht]
        cases hr : newMessages c.role (texts ++ partTexts c.parts) with
        | none => exact ih msgs (texts ++ partTexts c.parts) c.role
        | some ms => exact ih (msgs ++ ms) [] c.role

/-- A mapped role's message constructor carries its text payload. -/
theorem msgText_of_roleMsgFunc (r : String) (f : String → Message)
    (h : roleMsgFunc r = some f) (t : String) : msgText (f t) = t := by
  unfold roleMsgFunc at h
  split at h <;>
    first
      | (injection h with h2; subst h2; rfl)
      | exact Option.noConfusion h

/-- A collected text comes from a part with that non-empty text. -/
theorem mem_partTexts (t : String) (ps : List Part) (h : t ∈ partTexts ps) :
    ∃ p ∈ ps, p.text ≠ "" ∧ t = p.text := by
  unfold partTexts at h
  rw [List.mem_filterMap] at h
  obtain ⟨p, hp, hf⟩ := h
  by_cases hz : p.text = ""
  · rw [if_pos hz] at hf
    exact absurd hf (by simp)
  · rw [if_neg hz] at hf
    simp only [Option.some.injEq] at hf
    exact ⟨p, hp, hz, hf.symm⟩

/-- Every message the translator loop emits is accounted for by the
initial accumulator, the pending texts buffer, or a non-empty text part
of one of the remaining turns. -/
theorem covertContentsAux_mem (cs : List Content) :
    ∀ (msgs : List Message) (texts : List String) (r : String) (m : Message),
      m ∈ covertContentsAux cs msgs texts r →
      m ∈ msgs ∨ msgText m ∈ texts ∨
        ∃ c ∈ cs, ∃ p ∈ c.parts, p.text ≠ "" ∧ msgText m = p.text := by
  induction cs with
  | nil =>
    intro msgs texts r m hm
    exact Or.inl (by simpa [covertContentsAux] using hm)
  | cons c rest ih =>
    intro msgs texts r m hm
    have hsplit2 : msgText m ∈ texts ++ partTexts c.parts →
        msgText m ∈ texts ∨ ∃ c2 ∈ c :: rest, ∃ p ∈ c2.parts, p.text ≠ "" ∧ msgText m = p.text := by
      intro h
      rcases List.mem_append.mp h with h | h
      · exact Or.inl h
      · obtain ⟨p, hp2, hne, heq⟩ := mem_partTexts _ _ h
        exact Or.inr ⟨c, by simp, p, hp2, hne, heq⟩
    simp only [covertContentsAux] at hm
    by_cases hp : c.parts = []
    · rw [if_pos hp] at hm
      rcases ih msgs texts r m hm with h | h | ⟨c', hc', hrest⟩
      · exact Or.inl h
      · exact Or.inr (Or.inl h)
      · exact Or.inr (Or.inr ⟨c', by simp [hc'], hrest⟩)
    · rw [if_neg hp] at hm
      by_cases ht : texts ++ partTexts c.parts = []
      · rw [if_pos ht] at hm
        rcases ih msgs (texts ++ partTexts c.parts) c.role m hm with h | h | ⟨c', hc', hrest⟩
        · exact Or.inl h
        · rcases hsplit2 h with h | h
          · exact Or.inr (Or.inl h)
          · exact Or.inr (Or.inr h)
        · exact Or.inr (Or.inr ⟨c', by simp [hc'], hrest⟩)
      · rw [if_neg ht] at hm
        cases hr : newMessages c.role (texts ++ partTexts c.parts) with
        | none =>
          rw [hr] at hm
          rcases ih msgs (texts ++ partTexts c.parts) c.role m hm with h | h | ⟨c', hc', hrest⟩
          · exact Or.inl h
          · rcases hsplit2 h with h | h
            · exact Or.inr (Or.inl h)
            · exact Or.inr (Or.inr h)
          · exact Or.inr (Or.inr ⟨c', by simp [hc'], hrest⟩)
        | some ms =>
          rw [hr] at hm
          rcases ih (msgs ++ ms) [] c.role m hm with h | h | ⟨c', hc', hrest⟩
          · rcases List.mem_append.mp h with h | h
            · exact Or.inl h
            · unfold newMessages at hr
              cases hf : roleMsgFunc c.role with
              | none =>
                rw [hf] at hr
                exact absurd hr (by simp)
              | some f =>
                rw [hf] at hr
                simp only [Option.map_some', Option.some.injEq] at hr
                subst hr
                obtain ⟨t, ht2, hmt⟩ := List.mem_map.mp h
                subst hmt
                rcases hsplit2 (by rw [msgText_of_roleMsgFunc c.role f hf t]; exact ht2)
                  with h2 | h2
                · exact Or.inr (Or.inl h2)
                · exact Or.inr (Or.inr h2)
          · exact absurd h (List.not_mem_nil _)
          · exact Or.inr (Or.inr ⟨c', by simp [hc'], hrest⟩)

/-- C10: the request translator builds provider messages only from
parts with non-empty text.  First conjunct: erasing every function-call
and function-result payload from a request changes nothing on the wire
(such parts are invisible, and never an error: the translation is
total by construction).  Second conjunct: every emitted provider
message carries the text of some non-empty text part of some turn. -/
theorem c10_text_only_translation :
    (∀ contents : List Content,
      covertContents (contents.map (fun c => ⟨c.role, c.parts.map clearNonText⟩))
        = covertContents contents) ∧
    (∀ (contents : List Content) (m : Message), m ∈ covertContents contents →
      ∃ c ∈ contents, ∃ p ∈ c.parts, p.text ≠ "" ∧ msgText m = p.text) := by
  constructor
  · intro contents
    exact covertContentsAux_map_clear contents [] [] ""
  · intro contents m hm
    rcases covertContentsAux_mem contents [] [] "" m hm with h | h | h
    · exact absurd h (List.not_mem_nil _)
    · exact absurd h (List.not_mem_nil _)
    · exact h

/-- Witness for c10_text_only_translation: a turn holding a text part
and a function-call part translates the same once the call is erased,
and the emitted user message "a" is traced to the text part. -/
theorem c10_witness :
    covertContents (([⟨"user", [⟨"a", none, none⟩, ⟨"", some ⟨"f", []⟩, none⟩]⟩] : List Content).map
        (fun c => ⟨c.role, c.parts.map clearNonText⟩))
      = covertContents [⟨"user", [⟨"a", none, none⟩, ⟨"", some ⟨"f", []⟩, none⟩]⟩] ∧
    ∃ c ∈ ([⟨"user", [⟨"a", none, none⟩, ⟨"", some ⟨"f", []⟩, none⟩]⟩] : List Content),
      ∃ p ∈ c.parts, p.text ≠ "" ∧ msgText (Message.user "a") = p.text :=
  ⟨c10_text_only_translation.1 [⟨"user", [⟨"a", none, none⟩, ⟨"", some ⟨"f", []⟩, none⟩]⟩],
   c10_text_only_translation.2 [⟨"user", [⟨"a", none, none⟩, ⟨"", some ⟨"f", []⟩, none⟩]⟩]
     (Message.user "a") (by decide)⟩

end AdkGo
